import Mathlib

/-!
# Verification of the portfolio analytics core

Shallow embedding of the TypeScript portfolio tracker's analytics core:

* `CurrencyConverterService` (`currencyConverter.ts`): rate table seeded at
  construction, cross-rate derivation, `convert`, fallback behaviour.
* `PortfolioCalculationService` (`portfolioCalculations.ts`): per-holding
  metrics, aggregate metrics, diversification score, risk classification.

JavaScript numbers are modelled as exact rationals (`ℚ`).  A JavaScript
division whose denominator is `0` produces `NaN` or `±Infinity`; any
arithmetic or `Math.max`/`Math.round` over such a value stays non-finite, so
a computation that has been contaminated this way is modelled as `none` in
an `Option`-typed result, while `some q` models a finite number `q`.
`Math.round x` is `⌊x + 1/2⌋` for every finite `x` (ties toward `+∞`),
and comparisons `NaN ≥ c`, `NaN < c` are `false`.
-/

namespace Portfolio

/-- JavaScript division: `none` models the non-finite result (`NaN` or
`±Infinity`) produced when the denominator is `0`. -/
def jsDiv (a b : ℚ) : Option ℚ :=
  if b = 0 then none else some (a / b)

/-- `Math.round` on a finite number: round half toward positive infinity. -/
def jsRound (q : ℚ) : ℤ :=
  ⌊q + 1/2⌋

/-- `x ≥ c` where `x` may be `NaN` (`none`): any comparison with `NaN` is
`false`. -/
def jsGe (x : Option ℚ) (c : ℚ) : Bool :=
  match x with
  | some q => decide (c ≤ q)
  | none => false

/-- `x < c` where `x` may be `NaN` (`none`). -/
def jsLt (x : Option ℚ) (c : ℚ) : Bool :=
  match x with
  | some q => decide (q < c)
  | none => false

/-! ## Currency converter (`currencyConverter.ts`) -/

/-- The seed table of `initializeRates`: units of each currency per 1 USD. -/
def baseRates : List (String × ℚ) :=
  [("USD", 1), ("AUD", 1.47), ("EUR", 0.85), ("GBP", 0.75), ("JPY", 150),
   ("CAD", 1.33), ("CHF", 0.88), ("INR", 83), ("CNY", 7.2)]

/-- Look a currency up in the seed table. -/
def lookupBase (c : String) : Option ℚ :=
  baseRates.lookup c

/-- The `exchangeRates` map built by `initializeRates`: the key `FROM_TO`
is present exactly when both currencies are in the seed table; its value is
`rates[to] / rates[from]`, with identity pairs set to `1`. -/
def exchangeRates (fromCurrency toCurrency : String) : Option ℚ :=
  match lookupBase fromCurrency, lookupBase toCurrency with
  | some rf, some rt => some (if fromCurrency = toCurrency then 1 else rt / rf)
  | _, _ => none

/-- Result record returned by `convert`. -/
structure ConversionResult where
  amount : ℚ
  fromCurrency : String
  toCurrency : String
  rate : ℚ
  convertedAmount : ℚ
  deriving Repr, DecidableEq

/-- `CurrencyConverterService.convert`: identity short-circuit, then table
lookup, then 1:1 fallback when the pair is absent. -/
def convert (amount : ℚ) (fromCurrency toCurrency : String) : ConversionResult :=
  if fromCurrency = toCurrency then
    { amount := amount, fromCurrency := fromCurrency, toCurrency := toCurrency
      rate := 1, convertedAmount := amount }
  else
    match exchangeRates fromCurrency toCurrency with
    | none =>
      { amount := amount, fromCurrency := fromCurrency, toCurrency := toCurrency
        rate := 1, convertedAmount := amount }
    | some rate =>
      { amount := amount, fromCurrency := fromCurrency, toCurrency := toCurrency
        rate := rate, convertedAmount := amount * rate }

/-- `convert` calls `logger.warn` exactly on the branch where the
currencies differ and the pair is missing from the table. -/
def convertWarns (fromCurrency toCurrency : String) : Bool :=
  if fromCurrency = toCurrency then false
  else
    match exchangeRates fromCurrency toCurrency with
    | none => true
    | some _ => false

/-! ## Portfolio calculations (`portfolioCalculations.ts`) -/

/-- The `Investment` record (`db/investments.ts`).  `investmentDate` is the
epoch-millisecond value of the parsed date string; `currentPrice` is the
optional field, `none` for absent.  The fields `id`, `securityName`,
`lastUpdated`, `createdAt`, `updatedAt` play no role in any calculation and
are omitted. -/
structure Investment where
  country : String
  securityType : String
  investmentDate : ℤ
  purchasePrice : ℚ
  quantity : ℚ
  currency : String
  currentPrice : Option ℚ
  deriving Repr, DecidableEq

/-- The `InvestmentWithMetrics` record returned per holding.  The source
spreads the whole input `Investment` into the result; that is the
`investment` field here.  The `annualizedReturn` field is a real number and
is read by no downstream computation; it is exactly
`calculateAnnualizedReturn profitLossPercentage daysSinceInvestment`
applied to the two fields stored here, so it is kept out of the record to
keep the pipeline computable. -/
structure InvestmentWithMetrics where
  investment : Investment
  currentValue : ℚ
  profitLoss : ℚ
  profitLossPercentage : ℚ
  daysSinceInvestment : ℤ
  deriving Repr, DecidableEq

/-- `Math.round(x * 100) / 100`, the 2-decimal rounding used for
profit/loss figures. -/
def round2 (x : ℚ) : ℚ :=
  (jsRound (x * 100) : ℚ) / 100

/-- Milliseconds per day, the divisor `1000 * 3600 * 24`. -/
def msPerDay : ℚ := 1000 * 3600 * 24

/-- `calculateDaysSinceInvestment`: floor of the millisecond difference
between now and the investment date, in whole days. -/
def calculateDaysSinceInvestment (now investmentDate : ℤ) : ℤ :=
  ⌊((now - investmentDate : ℤ) : ℚ) / msPerDay⌋

/-- `calculateAnnualizedReturn`: `undefined` (`none`) for non-positive day
counts and for periods under 0.1 year; otherwise
`Math.pow(1 + p/100, 1/years) - 1` as a real number. -/
noncomputable def calculateAnnualizedReturn
    (totalReturnPercentage : ℚ) (days : ℤ) : Option ℝ :=
  if days ≤ 0 then none
  else
    let years : ℚ := (days : ℚ) / 365.25
    if years < 0.1 then none
    else some ((1 + (totalReturnPercentage : ℝ) / 100) ^ (((1 / years : ℚ) : ℝ)) - 1)

/-- The expression `investment.currentPrice || investment.purchasePrice`:
JavaScript `||` falls back when the left side is absent (`undefined`) or
`0` (falsy). -/
def effectiveCurrentPrice (investment : Investment) : ℚ :=
  match investment.currentPrice with
  | some p => if p = 0 then investment.purchasePrice else p
  | none => investment.purchasePrice

/-- The body of the `investments.map` callback in
`calculateInvestmentMetrics`, for one holding. -/
def investmentMetricsOne (now : ℤ) (baseCurrency : String)
    (investment : Investment) : InvestmentWithMetrics :=
  let currentPrice := effectiveCurrentPrice investment
  let currentValueInBaseCurrency :=
    (convert (currentPrice * investment.quantity)
      investment.currency baseCurrency).convertedAmount
  let purchaseValueInBaseCurrency :=
    (convert (investment.purchasePrice * investment.quantity)
      investment.currency baseCurrency).convertedAmount
  let profitLoss := round2 (currentValueInBaseCurrency - purchaseValueInBaseCurrency)
  let profitLossPercentage :=
    if 0 < purchaseValueInBaseCurrency then
      round2 (profitLoss / purchaseValueInBaseCurrency * 100)
    else 0
  { investment := investment
    currentValue := currentValueInBaseCurrency
    profitLoss := profitLoss
    profitLossPercentage := profitLossPercentage
    daysSinceInvestment := calculateDaysSinceInvestment now investment.investmentDate }

/-- `calculateInvestmentMetrics`: one metrics record per holding, in caller
order (`Promise.all` preserves the order of the mapped list). -/
def calculateInvestmentMetrics (now : ℤ) (baseCurrency : String)
    (investments : List Investment) : List InvestmentWithMetrics :=
  investments.map (investmentMetricsOne now baseCurrency)

/-- `calculateDiversificationScore`.  The concentration term divides each
holding's `currentValue` by the total; the source has no zero-check on the
total, so a zero total makes every ratio `NaN` or `±Infinity` and the final
`Math.round` non-finite — modelled as `none`. -/
def calculateDiversificationScore
    (investments : List InvestmentWithMetrics) : Option ℤ :=
  match investments with
  | [] => some 0
  | inv0 :: rest =>
    let invs := inv0 :: rest
    let securityTypes := (invs.map (fun inv => inv.investment.securityType)).dedup.length
    let countries := (invs.map (fun inv => inv.investment.country)).dedup.length
    let currencies := (invs.map (fun inv => inv.investment.currency)).dedup.length
    let typeScore : ℚ := min ((securityTypes : ℚ) * 6) 30
    let geoScore : ℚ := min ((countries : ℚ) * 5) 25
    let currencyScore : ℚ := min ((currencies : ℚ) * 4) 20
    let totalValue : ℚ := (invs.map (fun inv => inv.currentValue)).sum
    if totalValue = 0 then none
    else
      let maxConcentration :=
        (rest.map (fun inv => inv.currentValue / totalValue)).foldl max
          (inv0.currentValue / totalValue)
      some (jsRound (typeScore + geoScore + currencyScore + (1 - maxConcentration) * 25))

/-- The three risk levels. -/
inductive RiskLevel where
  | Low
  | Medium
  | High
  deriving Repr, DecidableEq

/-- The `highRiskTypes` array of `assessRiskLevel`. -/
def highRiskTypes : List String := ["Stock", "Crypto"]

/-- `assessRiskLevel`.  On an empty list `highRiskRatio` is `0/0 = NaN`
(`none`); `NaN` propagates through the additions and both threshold
comparisons are then false.  The `diversificationScore` argument may itself
be `NaN` (`none`), in which case both `< 50` and `< 75` are false. -/
def assessRiskLevel (investments : List InvestmentWithMetrics)
    (diversificationScore : Option ℚ) : RiskLevel :=
  let highRiskRatio :=
    jsDiv ((investments.filter
      (fun inv => highRiskTypes.contains inv.investment.securityType)).length : ℚ)
      ((investments.length : ℚ))
  let riskScore := highRiskRatio.map (fun r =>
    r * 40
    + (if jsLt diversificationScore 50 then 30
       else if jsLt diversificationScore 75 then 15 else 0)
    + (let countries := (investments.map (fun inv => inv.investment.country)).dedup.length
       if countries = 1 then 20 else if countries = 2 then 10 else 0)
    + (let currencies := (investments.map (fun inv => inv.investment.currency)).dedup.length
       if currencies = 1 then 10 else 0))
  if jsGe riskScore 70 then RiskLevel.High
  else if jsGe riskScore 40 then RiskLevel.Medium
  else RiskLevel.Low

/-- The `PortfolioMetrics` record.  `diversificationScore` is `Option ℤ`
(`none` models the `NaN` produced when the total current value is zero). -/
structure PortfolioMetrics where
  totalInvestment : ℚ
  currentValue : ℚ
  totalProfitLoss : ℚ
  totalProfitLossPercentage : ℚ
  topPerformers : List InvestmentWithMetrics
  underPerformers : List InvestmentWithMetrics
  diversificationScore : Option ℤ
  riskLevel : RiskLevel
  deriving Repr, DecidableEq

/-- `calculatePortfolioMetrics`. -/
def calculatePortfolioMetrics (now : ℤ) (investments : List Investment)
    (baseCurrency : String) : PortfolioMetrics :=
  let investmentsWithMetrics := calculateInvestmentMetrics now baseCurrency investments
  let totalInvestment := investmentsWithMetrics.foldl
    (fun sum inv => sum +
      (convert (inv.investment.purchasePrice * inv.investment.quantity)
        inv.investment.currency baseCurrency).convertedAmount) 0
  let currentValue := investmentsWithMetrics.foldl
    (fun sum inv => sum + inv.currentValue) 0
  let totalProfitLoss := currentValue - totalInvestment
  let totalProfitLossPercentage :=
    if 0 < totalInvestment then totalProfitLoss / totalInvestment * 100 else 0
  let topPerformers :=
    ((investmentsWithMetrics.filter (fun inv => 0 < inv.profitLossPercentage)).mergeSort
      (fun a b => decide (b.profitLossPercentage ≤ a.profitLossPercentage))).take 3
  let underPerformers :=
    ((investmentsWithMetrics.filter (fun inv => inv.profitLossPercentage < 0)).mergeSort
      (fun a b => decide (a.profitLossPercentage ≤ b.profitLossPercentage))).take 3
  let diversificationScore := calculateDiversificationScore investmentsWithMetrics
  let riskLevel := assessRiskLevel investmentsWithMetrics
    (diversificationScore.map (fun s => (s : ℚ)))
  { totalInvestment := totalInvestment
    currentValue := currentValue
    totalProfitLoss := totalProfitLoss
    totalProfitLossPercentage := totalProfitLossPercentage
    topPerformers := topPerformers
    underPerformers := underPerformers
    diversificationScore := diversificationScore
    riskLevel := riskLevel }

/-! ## Concrete sample data -/

/-- A holding whose purchase price is zero; with no current price its
converted current value is `0`. -/
def zeroValueInvestment : Investment :=
  { country := "USA", securityType := "Stock", investmentDate := 0,
    purchasePrice := 0, quantity := 10, currency := "USD", currentPrice := none }

/-- The spec's scenario holding: purchased at 100, current price 110,
quantity 10, same currency as the target. -/
def scenarioInvestment : Investment :=
  { country := "USA", securityType := "Stock", investmentDate := 0,
    purchasePrice := 100, quantity := 10, currency := "USD", currentPrice := some 110 }

/-- A holding whose `currentPrice` field is present and exactly `0`. -/
def zeroCurrentPriceInvestment : Investment :=
  { country := "USA", securityType := "Stock", investmentDate := 0,
    purchasePrice := 50, quantity := 2, currency := "USD", currentPrice := some 0 }

/-- A concrete metrics record used to instantiate universally quantified
theorems. -/
def sampleMetrics : InvestmentWithMetrics :=
  { investment := scenarioInvestment, currentValue := 1000, profitLoss := 100,
    profitLossPercentage := 10, daysSinceInvestment := 365 }

/-! ## Theorems -/

/-- A fold of `max` is bounded by any bound above the seed and every
element. -/
theorem foldl_max_le {b : ℚ} :
    ∀ (l : List ℚ) (a : ℚ), a ≤ b → (∀ x ∈ l, x ≤ b) → l.foldl max a ≤ b
  | [], _, ha, _ => ha
  | x :: xs, a, ha, hl =>
    foldl_max_le xs (max a x)
      (max_le ha (hl x (List.mem_cons_self x xs)))
      (fun y hy => hl y (List.mem_cons_of_mem x hy))

/-- The seed is below a fold of `max`. -/
theorem le_foldl_max : ∀ (l : List ℚ) (a : ℚ), a ≤ l.foldl max a
  | [], a => le_refl a
  | x :: xs, a => le_trans (le_max_left a x) (le_foldl_max xs (max a x))

/-- C3: for every currency code `C` (supported or not) and every amount
`x` (including `0` and negatives), `convert x C C` returns rate `1` and
`convertedAmount = x`; the result is produced by the identity short-circuit
and therefore holds with no table lookup, also for codes absent from the
table. -/
theorem convert_same_currency (x : ℚ) (C : String) :
    convert x C C =
      { amount := x, fromCurrency := C, toCurrency := C, rate := 1,
        convertedAmount := x } := by
  simp [convert]

/-- C2: when the two currencies differ and their pair is absent from the
rate table, `convert` falls back to rate `1` and `convertedAmount = amount`
without failing, and the warning diagnostic is emitted. -/
theorem convert_missing_pair_fallback (amount : ℚ) (fromCurrency toCurrency : String)
    (hne : fromCurrency ≠ toCurrency)
    (hmiss : exchangeRates fromCurrency toCurrency = none) :
    convert amount fromCurrency toCurrency =
      { amount := amount, fromCurrency := fromCurrency, toCurrency := toCurrency,
        rate := 1, convertedAmount := amount } ∧
    convertWarns fromCurrency toCurrency = true := by
  rw [convert, convertWarns, if_neg hne, if_neg hne, hmiss]
  exact ⟨rfl, rfl⟩

/-- Witness for C2 at the spec's example: `convert(100, "XYZ", "USD")`. -/
theorem convert_missing_pair_fallback_witness :
    ("XYZ" : String) ≠ "USD" ∧ exchangeRates "XYZ" "USD" = none ∧
    convert 100 "XYZ" "USD" =
      { amount := 100, fromCurrency := "XYZ", toCurrency := "USD", rate := 1,
        convertedAmount := 100 } ∧
    convertWarns "XYZ" "USD" = true := by
  have h1 : ("XYZ" : String) ≠ "USD" := by decide
  have h2 : exchangeRates "XYZ" "USD" = none := by rfl
  exact ⟨h1, h2, (convert_missing_pair_fallback 100 "XYZ" "USD" h1 h2).1,
    (convert_missing_pair_fallback 100 "XYZ" "USD" h1 h2).2⟩

/-- C5: `calculateAnnualizedReturn` is `undefined` (`none`) exactly when
`days ≤ 0` or `days/365.25 < 0.1`; otherwise it is
`(1 + p/100) ^ (365.25/days) − 1`. -/
theorem annualized_return_spec (p : ℚ) (days : ℤ) :
    (calculateAnnualizedReturn p days = none ↔
      days ≤ 0 ∨ (days : ℚ) / 365.25 < 0.1) ∧
    (¬(days ≤ 0 ∨ (days : ℚ) / 365.25 < 0.1) →
      calculateAnnualizedReturn p days =
        some ((1 + (p : ℝ) / 100) ^ ((365.25 : ℝ) / ((days : ℤ) : ℝ)) - 1)) := by
  constructor
  · unfold calculateAnnualizedReturn
    by_cases h1 : days ≤ 0
    · simp [h1]
    · by_cases h2 : (days : ℚ) / 365.25 < 0.1 <;> simp [h1, h2]
  · intro h
    push_neg at h
    obtain ⟨h1, h2⟩ := h
    have hne : ((days : ℤ) : ℚ) ≠ 0 := by
      exact_mod_cast Int.ne_of_gt h1
    unfold calculateAnnualizedReturn
    rw [if_neg (not_le.mpr h1), if_neg (not_lt.mpr h2)]
    congr 1
    congr 1
    have : (1 / ((days : ℚ) / 365.25) : ℚ) = 365.25 / (days : ℚ) := by
      field_simp
    rw [this]
    push_cast
    norm_num

/-- Witness for C5 at `p = 10`, `days = 365`: the guard fails and the
formula value is returned. -/
theorem annualized_return_spec_witness :
    ¬((365 : ℤ) ≤ 0 ∨ (((365 : ℤ) : ℚ)) / 365.25 < 0.1) ∧
    calculateAnnualizedReturn 10 365 =
      some ((1 + (10 : ℝ) / 100) ^ ((365.25 : ℝ) / (((365 : ℤ)) : ℝ)) - 1) := by
  have h : ¬((365 : ℤ) ≤ 0 ∨ (((365 : ℤ) : ℚ)) / 365.25 < 0.1) := by
    push_neg
    norm_num
  exact ⟨h, (annualized_return_spec 10 365).2 h⟩

/-- C4: the profit/loss percentage is `round2(100 × profitLoss / pv)` when
the converted purchase value `pv` is positive, and `0` when `pv ≤ 0`; no
division by zero occurs. -/
theorem profit_loss_percentage_guard (now : ℤ) (baseCurrency : String)
    (inv : Investment) :
    (0 < (convert (inv.purchasePrice * inv.quantity) inv.currency
        baseCurrency).convertedAmount →
      (investmentMetricsOne now baseCurrency inv).profitLossPercentage =
        round2 (100 * (investmentMetricsOne now baseCurrency inv).profitLoss /
          (convert (inv.purchasePrice * inv.quantity) inv.currency
            baseCurrency).convertedAmount)) ∧
    ((convert (inv.purchasePrice * inv.quantity) inv.currency
        baseCurrency).convertedAmount ≤ 0 →
      (investmentMetricsOne now baseCurrency inv).profitLossPercentage = 0) := by
  constructor
  · intro h
    have hpl : (investmentMetricsOne now baseCurrency inv).profitLoss =
        round2 ((convert (effectiveCurrentPrice inv * inv.quantity) inv.currency
            baseCurrency).convertedAmount -
          (convert (inv.purchasePrice * inv.quantity) inv.currency
            baseCurrency).convertedAmount) := rfl
    show (if 0 < _ then _ else _) = _
    rw [if_pos h, hpl]
    congr 1
    ring
  · intro h
    show (if 0 < _ then _ else _) = 0
    rw [if_neg (not_lt.mpr h)]

/-- Witness for C4 at the spec's scenario (purchase 100, current 110,
quantity 10, same currency): converted purchase value `1000 > 0`,
`profitLoss = 100`, `profitLossPercentage = 10`. -/
theorem profit_loss_percentage_guard_witness :
    0 < (convert (scenarioInvestment.purchasePrice * scenarioInvestment.quantity)
        scenarioInvestment.currency "USD").convertedAmount ∧
    (investmentMetricsOne 0 "USD" scenarioInvestment).profitLoss = 100 ∧
    (investmentMetricsOne 0 "USD" scenarioInvestment).profitLossPercentage =
      round2 (100 * (investmentMetricsOne 0 "USD" scenarioInvestment).profitLoss /
        (convert (scenarioInvestment.purchasePrice * scenarioInvestment.quantity)
          scenarioInvestment.currency "USD").convertedAmount) ∧
    (investmentMetricsOne 0 "USD" scenarioInvestment).profitLossPercentage = 10 := by
  have hpv : (convert (scenarioInvestment.purchasePrice * scenarioInvestment.quantity)
      scenarioInvestment.currency "USD").convertedAmount = 1000 := by
    simp [scenarioInvestment, convert]
    norm_num
  have hpl : (investmentMetricsOne 0 "USD" scenarioInvestment).profitLoss = 100 := by
    simp [investmentMetricsOne, scenarioInvestment, effectiveCurrentPrice, convert,
      round2, jsRound]
    norm_num
  have hpos : 0 < (convert (scenarioInvestment.purchasePrice * scenarioInvestment.quantity)
      scenarioInvestment.currency "USD").convertedAmount := by
    rw [hpv]; norm_num
  refine ⟨hpos, hpl, (profit_loss_percentage_guard 0 "USD" scenarioInvestment).1 hpos, ?_⟩
  rw [(profit_loss_percentage_guard 0 "USD" scenarioInvestment).1 hpos, hpl, hpv]
  unfold round2 jsRound
  norm_num

/-- C10: a holding whose `currentPrice` is present and exactly `0` is
treated like one with no `currentPrice` at all (JavaScript `||` treats `0`
as falsy): the current value comes from the purchase price, the profit/loss
is `0`, and every computed metric equals the one for the same holding with
the field absent. -/
theorem zero_current_price_like_absent (now : ℤ) (baseCurrency : String)
    (inv : Investment) (h : inv.currentPrice = some 0) :
    (investmentMetricsOne now baseCurrency inv).currentValue =
      (convert (inv.purchasePrice * inv.quantity) inv.currency
        baseCurrency).convertedAmount ∧
    (investmentMetricsOne now baseCurrency inv).profitLoss = 0 ∧
    (investmentMetricsOne now baseCurrency inv).currentValue =
      (investmentMetricsOne now baseCurrency
        { inv with currentPrice := none }).currentValue ∧
    (investmentMetricsOne now baseCurrency inv).profitLoss =
      (investmentMetricsOne now baseCurrency
        { inv with currentPrice := none }).profitLoss ∧
    (investmentMetricsOne now baseCurrency inv).profitLossPercentage =
      (investmentMetricsOne now baseCurrency
        { inv with currentPrice := none }).profitLossPercentage ∧
    (investmentMetricsOne now baseCurrency inv).daysSinceInvestment =
      (investmentMetricsOne now baseCurrency
        { inv with currentPrice := none }).daysSinceInvestment ∧
    calculateAnnualizedReturn
        (investmentMetricsOne now baseCurrency inv).profitLossPercentage
        (investmentMetricsOne now baseCurrency inv).daysSinceInvestment =
      calculateAnnualizedReturn
        (investmentMetricsOne now baseCurrency
          { inv with currentPrice := none }).profitLossPercentage
        (investmentMetricsOne now baseCurrency
          { inv with currentPrice := none }).daysSinceInvestment := by
  have hcp : effectiveCurrentPrice inv = inv.purchasePrice := by
    unfold effectiveCurrentPrice
    rw [h]
    simp
  have hz0 : round2 (0 : ℚ) = 0 := by
    unfold round2 jsRound
    norm_num
  constructor
  · show (convert (effectiveCurrentPrice inv * inv.quantity) _ _).convertedAmount = _
    rw [hcp]
  refine ⟨?_, ?_, ?_, ?_, ?_, ?_⟩ <;>
    simp only [investmentMetricsOne, effectiveCurrentPrice, h] <;>
    simp [hz0]

/-- Witness for C10 at a concrete holding with `currentPrice = some 0`
(purchase 50, quantity 2): current value `100`, profit/loss `0`. -/
theorem zero_current_price_like_absent_witness :
    zeroCurrentPriceInvestment.currentPrice = some 0 ∧
    (investmentMetricsOne 0 "USD" zeroCurrentPriceInvestment).currentValue =
      (convert (zeroCurrentPriceInvestment.purchasePrice *
        zeroCurrentPriceInvestment.quantity) zeroCurrentPriceInvestment.currency
        "USD").convertedAmount ∧
    (investmentMetricsOne 0 "USD" zeroCurrentPriceInvestment).profitLoss = 0 ∧
    (investmentMetricsOne 0 "USD" zeroCurrentPriceInvestment).currentValue = 100 := by
  have h : zeroCurrentPriceInvestment.currentPrice = some 0 := rfl
  have hthm := zero_current_price_like_absent 0 "USD" zeroCurrentPriceInvestment h
  refine ⟨h, hthm.1, hthm.2.1, ?_⟩
  rw [hthm.1]
  simp [zeroCurrentPriceInvestment, convert]
  norm_num

/-- C1 counterexample: a single holding with purchase price `0` and no
current price has converted current value `0`, so the total current value
is `0`; the concentration ratio is then `0/0 = NaN`, the score is
non-finite (`none`), not an integer between `0` and `100`. -/
theorem diversification_score_zero_total_counterexample :
    calculateDiversificationScore
      (calculateInvestmentMetrics 0 "USD" [zeroValueInvestment]) = none := by
  simp [calculateInvestmentMetrics, investmentMetricsOne, zeroValueInvestment,
    effectiveCurrentPrice, convert, calculateDiversificationScore]

/-- C1 (amended): for a non-empty list of holdings whose current values
are all non-negative with non-zero total, the diversification score is a
finite integer with `0 ≤ score ≤ 100`; for the empty list it is exactly
`0`.  (When the total current value is `0` the score is non-finite
(`NaN`/`±Infinity`), modelled as `none`.) -/
theorem diversification_score_bounds (investments : List InvestmentWithMetrics)
    (hne : investments ≠ [])
    (hnn : ∀ inv ∈ investments, 0 ≤ inv.currentValue)
    (hsum : (investments.map (fun inv => inv.currentValue)).sum ≠ 0) :
    (∃ s : ℤ, calculateDiversificationScore investments = some s ∧
      0 ≤ s ∧ s ≤ 100) ∧
    calculateDiversificationScore [] = some 0 := by
  refine ⟨?_, rfl⟩
  obtain ⟨inv0, rest, rfl⟩ : ∃ inv0 rest, investments = inv0 :: rest := by
    cases investments with
    | nil => exact absurd rfl hne
    | cons a l => exact ⟨a, l, rfl⟩
  have hT0 : (0 : ℚ) ≤ (((inv0 :: rest).map (fun inv => inv.currentValue)).sum) := by
    refine List.sum_nonneg ?_
    intro x hx
    obtain ⟨inv, hinv, rfl⟩ := List.mem_map.mp hx
    exact hnn inv hinv
  have hT : (0 : ℚ) < (((inv0 :: rest).map (fun inv => inv.currentValue)).sum) :=
    lt_of_le_of_ne hT0 (Ne.symm hsum)
  have hstep : calculateDiversificationScore (inv0 :: rest) =
      if (((inv0 :: rest).map (fun inv => inv.currentValue)).sum : ℚ) = 0 then none
      else some (jsRound (
        min ((((inv0 :: rest).map (fun inv => inv.investment.securityType)).dedup.length : ℚ) * 6) 30
        + min ((((inv0 :: rest).map (fun inv => inv.investment.country)).dedup.length : ℚ) * 5) 25
        + min ((((inv0 :: rest).map (fun inv => inv.investment.currency)).dedup.length : ℚ) * 4) 20
        + (1 - (rest.map (fun inv =>
              inv.currentValue / (((inv0 :: rest).map (fun inv => inv.currentValue)).sum))).foldl max
            (inv0.currentValue / (((inv0 :: rest).map (fun inv => inv.currentValue)).sum))) * 25)) :=
    rfl
  rw [hstep, if_neg (ne_of_gt hT)]
  set T := (((inv0 :: rest).map (fun inv => inv.currentValue)).sum) with hTdef
  set m := (rest.map (fun inv => inv.currentValue / T)).foldl max (inv0.currentValue / T)
    with hmdef
  have hmem_le : ∀ inv ∈ inv0 :: rest, inv.currentValue ≤ T := by
    intro inv hinv
    refine List.single_le_sum ?_ _ (List.mem_map.mpr ⟨inv, hinv, rfl⟩)
    intro x hx
    obtain ⟨inv', hinv', rfl⟩ := List.mem_map.mp hx
    exact hnn inv' hinv'
  have hm0 : (0 : ℚ) ≤ m := by
    refine le_trans ?_ (le_foldl_max _ _)
    exact div_nonneg (hnn inv0 (List.mem_cons_self _ _)) (le_of_lt hT)
  have hm1 : m ≤ 1 := by
    refine foldl_max_le _ _ ?_ ?_
    · rw [div_le_one hT]
      exact hmem_le inv0 (List.mem_cons_self _ _)
    · intro x hx
      obtain ⟨inv, hinv, rfl⟩ := List.mem_map.mp hx
      rw [div_le_one hT]
      exact hmem_le inv (List.mem_cons_of_mem _ hinv)
  set t := min ((((inv0 :: rest).map (fun inv => inv.investment.securityType)).dedup.length : ℚ) * 6) 30
  set g := min ((((inv0 :: rest).map (fun inv => inv.investment.country)).dedup.length : ℚ) * 5) 25
  set c := min ((((inv0 :: rest).map (fun inv => inv.investment.currency)).dedup.length : ℚ) * 4) 20
  have ht0 : (0 : ℚ) ≤ t := le_min (by positivity) (by norm_num)
  have ht30 : t ≤ 30 := min_le_right _ _
  have hg0 : (0 : ℚ) ≤ g := le_min (by positivity) (by norm_num)
  have hg25 : g ≤ 25 := min_le_right _ _
  have hc0 : (0 : ℚ) ≤ c := le_min (by positivity) (by norm_num)
  have hc20 : c ≤ 20 := min_le_right _ _
  refine ⟨_, rfl, ?_, ?_⟩
  · rw [jsRound]
    refine Int.le_floor.mpr ?_
    push_cast
    nlinarith
  · rw [jsRound]
    have h101 : t + g + c + (1 - m) * 25 + 1 / 2 < (101 : ℚ) := by nlinarith
    have hfl : ⌊t + g + c + (1 - m) * 25 + 1 / 2⌋ < (100 : ℤ) + 1 :=
      Int.floor_lt.mpr (by push_cast; linarith)
    exact Int.lt_add_one_iff.mp hfl

/-- Witness for C1 (amended) at a one-element list with current value
`1000`. -/
theorem diversification_score_bounds_witness :
    ([sampleMetrics] : List InvestmentWithMetrics) ≠ [] ∧
    (∀ inv ∈ [sampleMetrics], (0 : ℚ) ≤ inv.currentValue) ∧
    (([sampleMetrics].map (fun inv => inv.currentValue)).sum ≠ 0) ∧
    (∃ s : ℤ, calculateDiversificationScore [sampleMetrics] = some s ∧
      0 ≤ s ∧ s ≤ 100) := by
  have h1 : ([sampleMetrics] : List InvestmentWithMetrics) ≠ [] := by simp
  have h2 : ∀ inv ∈ [sampleMetrics], (0 : ℚ) ≤ inv.currentValue := by
    intro inv hinv
    simp only [List.mem_singleton] at hinv
    rw [hinv]
    show (0 : ℚ) ≤ 1000
    norm_num
  have h3 : ([sampleMetrics].map (fun inv => inv.currentValue)).sum ≠ 0 := by
    show (1000 : ℚ) + 0 ≠ 0
    norm_num
  exact ⟨h1, h2, h3, (diversification_score_bounds [sampleMetrics] h1 h2 h3).1⟩

/-- C9: on an empty holdings list every aggregate is `0`, both performer
lists are empty, the diversification score is `0`, and the risk level is
the one deterministic empty-case value: `Low` (the `0/0 = NaN` risk score
fails both threshold comparisons), for every date and target currency. -/
theorem empty_portfolio_metrics (now : ℤ) (baseCurrency : String) :
    calculatePortfolioMetrics now [] baseCurrency =
      { totalInvestment := 0, currentValue := 0, totalProfitLoss := 0,
        totalProfitLossPercentage := 0, topPerformers := [], underPerformers := [],
        diversificationScore := some 0, riskLevel := RiskLevel.Low } := by
  simp [calculatePortfolioMetrics, calculateInvestmentMetrics,
    calculateDiversificationScore, assessRiskLevel, jsDiv, jsGe, jsLt]

/-- C6: for every non-empty list of holdings the risk level comes from the
risk score `40·(high-risk fraction) + (30 if score < 50 else 15 if < 75
else 0) + (20 if one country, 10 if two) + (10 if one currency)`, with
`High` for `≥ 70` (checked first), `Medium` for `≥ 40`, else `Low`. -/
theorem assess_risk_level_spec (investments : List InvestmentWithMetrics) (d : ℚ)
    (hne : investments ≠ []) :
    assessRiskLevel investments (some d) =
      (let riskScore : ℚ :=
        (((investments.filter (fun inv =>
            decide (inv.investment.securityType = "Stock" ∨
              inv.investment.securityType = "Crypto"))).length : ℚ) /
          (investments.length : ℚ)) * 40
        + (if d < 50 then 30 else if d < 75 then 15 else 0)
        + (if (investments.map (fun inv => inv.investment.country)).dedup.length = 1 then 20
           else if (investments.map (fun inv => inv.investment.country)).dedup.length = 2 then 10
           else 0)
        + (if (investments.map (fun inv => inv.investment.currency)).dedup.length = 1 then 10
           else 0)
      if 70 ≤ riskScore then RiskLevel.High
      else if 40 ≤ riskScore then RiskLevel.Medium
      else RiskLevel.Low) := by
  have hlen : ((investments.length : ℚ)) ≠ 0 := by
    have hpos : 0 < investments.length := List.length_pos.mpr hne
    exact_mod_cast Nat.pos_iff_ne_zero.mp hpos
  have hfilter : investments.filter
      (fun inv => highRiskTypes.contains inv.investment.securityType) =
      investments.filter (fun inv =>
        decide (inv.investment.securityType = "Stock" ∨
          inv.investment.securityType = "Crypto")) := by
    apply List.filter_congr
    intro x _
    simp [highRiskTypes]
  unfold assessRiskLevel
  rw [hfilter]
  simp only [jsDiv, if_neg hlen, Option.map_some', jsGe, jsLt, decide_eq_true_eq]

/-- Witness for C6 at a one-element all-`Stock` portfolio with
diversification score `0`: risk score `40 + 30 + 20 + 10 = 100 ≥ 70`, so
the level is `High`. -/
theorem assess_risk_level_spec_witness :
    ([sampleMetrics] : List InvestmentWithMetrics) ≠ [] ∧
    assessRiskLevel [sampleMetrics] (some 0) = RiskLevel.High := by
  have h1 : ([sampleMetrics] : List InvestmentWithMetrics) ≠ [] := by simp
  refine ⟨h1, ?_⟩
  rw [assess_risk_level_spec [sampleMetrics] 0 h1]
  norm_num [sampleMetrics, scenarioInvestment]

/-- Folding addition of `g x` from an accumulator is the accumulator plus
the sum of the mapped list. -/
theorem foldl_add_eq_sum_map {α : Type} (g : α → ℚ) :
    ∀ (l : List α) (a : ℚ), l.foldl (fun s x => s + g x) a = a + (l.map g).sum
  | [], a => by simp
  | x :: xs, a => by
    simp only [List.foldl_cons, List.map_cons, List.sum_cons]
    rw [foldl_add_eq_sum_map g xs (a + g x)]
    ring

/-- C7: the portfolio aggregates satisfy
`totalInvestment + totalProfitLoss = currentValue` exactly (hence within
the 0.01 tolerance), `totalInvestment` equals the sum of the per-holding
converted purchase values, and the total percentage is
`100·totalProfitLoss/totalInvestment` when `totalInvestment > 0` and `0`
otherwise. -/
theorem portfolio_aggregate_consistency (now : ℤ) (investments : List Investment)
    (baseCurrency : String) :
    let m := calculatePortfolioMetrics now investments baseCurrency
    m.totalInvestment + m.totalProfitLoss = m.currentValue ∧
    |m.totalInvestment + m.totalProfitLoss - m.currentValue| ≤ 1/100 ∧
    m.totalInvestment = (investments.map (fun inv =>
      (convert (inv.purchasePrice * inv.quantity) inv.currency
        baseCurrency).convertedAmount)).sum ∧
    (0 < m.totalInvestment →
      m.totalProfitLossPercentage = 100 * m.totalProfitLoss / m.totalInvestment) ∧
    (m.totalInvestment ≤ 0 → m.totalProfitLossPercentage = 0) := by
  intro m
  have htp : m.totalProfitLoss = m.currentValue - m.totalInvestment := rfl
  have h1 : m.totalInvestment + m.totalProfitLoss = m.currentValue := by
    rw [htp]; ring
  have hpct : m.totalProfitLossPercentage =
      if 0 < m.totalInvestment then m.totalProfitLoss / m.totalInvestment * 100
      else 0 := rfl
  refine ⟨h1, by rw [h1]; norm_num, ?_, ?_, ?_⟩
  · show (investments.map (investmentMetricsOne now baseCurrency)).foldl _ 0 = _
    rw [foldl_add_eq_sum_map, zero_add, List.map_map]
    rfl
  · intro h
    rw [hpct, if_pos h]
    field_simp
    ring
  · intro h
    rw [hpct, if_neg (not_lt.mpr h)]

/-- Witness for C7 at the portfolio `[scenarioInvestment]` in USD:
`totalInvestment = 1000 > 0` and the percentage equals
`100 · totalProfitLoss / totalInvestment`. -/
theorem portfolio_aggregate_consistency_witness :
    0 < (calculatePortfolioMetrics 0 [scenarioInvestment] "USD").totalInvestment ∧
    (calculatePortfolioMetrics 0 [scenarioInvestment] "USD").totalProfitLossPercentage =
      100 * (calculatePortfolioMetrics 0 [scenarioInvestment] "USD").totalProfitLoss /
        (calculatePortfolioMetrics 0 [scenarioInvestment] "USD").totalInvestment := by
  have hti : (calculatePortfolioMetrics 0 [scenarioInvestment] "USD").totalInvestment
      = 1000 := by
    show (0 : ℚ) + (convert (scenarioInvestment.purchasePrice * scenarioInvestment.quantity)
      scenarioInvestment.currency "USD").convertedAmount = 1000
    simp [scenarioInvestment, convert]
    norm_num
  have hpos : 0 < (calculatePortfolioMetrics 0 [scenarioInvestment] "USD").totalInvestment := by
    rw [hti]; norm_num
  exact ⟨hpos, (portfolio_aggregate_consistency 0 [scenarioInvestment] "USD").2.2.2.1 hpos⟩

end Portfolio
